import Mathlib

/-!
Verification of the DMAC/BMAC serial codec and session logic of
`pyshell.py` (class `BMAC`).  Strings of the Python source are modelled as
lists of Unicode code points (`List Nat`); byte buffers as `List Nat` with
every element below 256.  `bytes(s,'ascii')` / `b.decode('ascii')` are
modelled as fallible functions returning `Except`.
-/

namespace PyShell

/-- ASCII STX control byte (`BMAC.STX = '\x02'`). -/
def STX : Nat := 2

/-- ASCII ETX control byte (`BMAC.ETX = '\x03'`). -/
def ETX : Nat := 3

/-- `str.upper` on one code point, restricted to the ASCII letters
(`'a'..'z'` map to `'A'..'Z'`, everything else is unchanged). -/
def upperChar (c : Nat) : Nat := if 97 ≤ c ∧ c ≤ 122 then c - 32 else c

/-- `lacommande.upper()` (pyshell.py line 60). -/
def upperStr (s : List Nat) : List Nat := s.map upperChar

/-- Fuel-driven digit accumulator, structurally recursive so that the
kernel can evaluate it; any fuel above `n` gives the digits of `n`. -/
def decDigitsAux : Nat → Nat → List Nat
  | 0, n => [48 + n % 10]
  | fuel + 1, n =>
    if n < 10 then [48 + n]
    else decDigitsAux fuel (n / 10) ++ [48 + n % 10]

/-- The decimal digits of `n` as ASCII code points, most significant
first. -/
def decDigits (n : Nat) : List Nat := decDigitsAux (n + 1) n

/-- Left-pad a digit string with ASCII `'0'` up to width `w`. -/
def zeroPad (w : Nat) (ds : List Nat) : List Nat :=
  List.replicate (w - ds.length) 48 ++ ds

/-- Python `f"{n:0w}"`: decimal, zero padded to minimum width `w`. -/
def decFmt (w n : Nat) : List Nat := zeroPad w (decDigits n)

/-- One uppercase hexadecimal digit as an ASCII code point (`n < 16`). -/
def hexDigit (n : Nat) : Nat := if n < 10 then 48 + n else 55 + n

/-- Python `f"{n:02X}"` for `n < 256`: two uppercase hex digits. -/
def hexFmt2 (n : Nat) : List Nat := [hexDigit (n / 16), hexDigit (n % 16)]

/-- The address-prefixed uppercased payload (pyshell.py lines 60-62):
upper-case the command, then, when an address is configured, prepend it as
two zero-padded decimal digits. -/
def payload (address : Option Nat) (cmd : List Nat) : List Nat :=
  match address with
  | some a => decFmt 2 a ++ upperStr cmd
  | none => upperStr cmd

/-- `sum(ord(c) for c in lacommande) % 256` (pyshell.py line 63). -/
def checksum (p : List Nat) : Nat := (p.foldl (· + ·) 0) % 256

/-- The frame string of pyshell.py line 70:
`f"{STX}{len(lacommande):03}{lacommande}{checksum % 256:02X}{ETX}"`. -/
def frameStr (address : Option Nat) (cmd : List Nat) : List Nat :=
  let p := payload address cmd
  [STX] ++ decFmt 3 p.length ++ p ++ hexFmt2 (checksum p % 256) ++ [ETX]

/-- `bytes(s,'ascii')` (pyshell.py line 71): succeeds iff every code point
is below 128, raising `UnicodeEncodeError` otherwise. -/
def asciiEncode (s : List Nat) : Except Unit (List Nat) :=
  if s.all (· < 128) then .ok s else .error ()

/-- The full outbound encoding of pyshell.py lines 60-71. -/
def encode (address : Option Nat) (cmd : List Nat) : Except Unit (List Nat) :=
  asciiEncode (frameStr address cmd)

/-- The classified result of one exchange. -/
inductive Outcome
  | ComError
  | SyntaxError
  | Ok
  | Data (payload : List Nat)
deriving DecidableEq, Repr

/-- Python `reponse[6:-4]`: elements from index 6 up to `len - 4`, with
both bounds clamped (empty whenever `len ≤ 10`). -/
def pySlice (l : List Nat) : List Nat := (l.drop 6).take (l.length - 10)

/-- `b.decode('ascii')`: succeeds iff every byte is below 128, raising
`UnicodeDecodeError` otherwise. -/
def asciiDecode (bs : List Nat) : Except Unit (List Nat) :=
  if bs.all (· < 128) then .ok bs else .error ()

/-- Classification of the raw reply (pyshell.py lines 88-95): no ACK
(0x06) anywhere → COM ERROR; else CAN (0x18) present → SYNTAX ERROR; else
no SUB (0x1A) → OK; else decode `reponse[6:-4]` as ASCII data. -/
def decode (reponse : List Nat) : Except Unit Outcome :=
  if ¬ reponse.contains 6 then .ok .ComError
  else if reponse.contains 24 then .ok .SyntaxError
  else if ¬ reponse.contains 26 then .ok .Ok
  else (asciiDecode (pySlice reponse)).map .Data

/-- The session configuration stored by `BMAC.__init__`
(pyshell.py lines 32-35). -/
structure BMACState where
  portCOM : Option (List Nat)
  baudrate : Nat
  address : Option Nat
deriving DecidableEq, Repr

/-- The caller-visible result of `BMAC.send`. -/
inductive SendOutcome
  | encodingError
  | serialException
  | decodingError
  | result (o : Outcome)
deriving DecidableEq, Repr

/-- `BMAC.send` (pyshell.py lines 57-95).  The serial transport is a
collaborator, so its behaviour in this exchange enters as data: `writeOk`
is false when `ser.write` raises `SerialException`, and `readRes` is
`none` when `ser.readline` raises (`some buf` is the buffer it returned,
possibly empty on timeout).  `flushInput`/`flushOutput` act only on the
transport and touch no session field.  The pair returned carries the
session state after the call. -/
def send (st : BMACState) (cmd : List Nat) (writeOk : Bool)
    (readRes : Option (List Nat)) : SendOutcome × BMACState :=
  match encode st.address cmd with
  | .error _ => (.encodingError, st)
  | .ok _frame =>
    if writeOk = false then (.serialException, st)
    else
      match readRes with
      | none => (.serialException, st)
      | some reponse =>
        match decode reponse with
        | .error _ => (.decodingError, st)
        | .ok o => (.result o, st)

/-- Modelled from the spec: the "force-bad-checksum" sentinel test mode of
the encoder, absent from `src/pyshell.py` (the spec records it from another
source variant of the repository).  If the first character of the command
is the designated sentinel, it is stripped from the payload and the
checksum accumulator is pre-incremented by 1; otherwise nothing changes.
Returns the remaining command and the accumulator pre-increment. -/
def stripSent (sentinel : Nat) (cmd : List Nat) : List Nat × Nat :=
  match cmd with
  | c :: rest => if c = sentinel then (rest, 1) else (cmd, 0)
  | [] => ([], 0)

/-- Modelled from the spec: the frame built by the sentinel-aware encoder:
strip the sentinel, build the usual payload from the remaining command,
and compute the checksum with the pre-incremented accumulator. -/
def frameStrSent (sentinel : Nat) (address : Option Nat) (cmd : List Nat) :
    List Nat :=
  let r := stripSent sentinel cmd
  let p := payload address r.1
  [STX] ++ decFmt 3 p.length ++ p ++ hexFmt2 ((r.2 + p.foldl (· + ·) 0) % 256)
    ++ [ETX]

/-! ### Helper lemmas -/

/-- The digit string does not depend on the fuel once it exceeds the
number. -/
theorem decDigitsAux_fuel {f1 f2 n : Nat} (h1 : n < f1) (h2 : n < f2) :
    decDigitsAux f1 n = decDigitsAux f2 n := by
  induction f1 generalizing f2 n with
  | zero => omega
  | succ f1 ih =>
    cases f2 with
    | zero => omega
    | succ f2 =>
      by_cases hn : n < 10
      · simp [decDigitsAux, hn]
      · have hd : n / 10 < n := Nat.div_lt_self (by omega) (by omega)
        simp only [decDigitsAux, if_neg hn]
        rw [ih (show n / 10 < f1 by omega) (show n / 10 < f2 by omega)]

/-- Unfolding of `decDigits` below 10. -/
theorem decDigits_lt {n : Nat} (hn : n < 10) : decDigits n = [48 + n] := by
  simp [decDigits, decDigitsAux, hn]

/-- Unfolding of `decDigits` at 10 and above. -/
theorem decDigits_ge {n : Nat} (hn : 10 ≤ n) :
    decDigits n = decDigits (n / 10) ++ [48 + n % 10] := by
  have hd : n / 10 < n := Nat.div_lt_self (by omega) (by omega)
  have h1 : decDigits n = decDigitsAux n (n / 10) ++ [48 + n % 10] := by
    simp [decDigits, decDigitsAux, show ¬ n < 10 by omega]
  rw [h1, decDigitsAux_fuel (show n / 10 < n by omega) (Nat.lt_succ_self _)]
  rfl

/-- Every element of `decDigits n` is an ASCII decimal digit. -/
theorem decDigits_mem {n d : Nat} (h : d ∈ decDigits n) : 48 ≤ d ∧ d ≤ 57 := by
  induction n using Nat.strong_induction_on with
  | _ n ih =>
    by_cases hn : n < 10
    · rw [decDigits_lt hn] at h
      simp at h
      omega
    · rw [decDigits_ge (by omega)] at h
      rcases List.mem_append.mp h with h1 | h2
      · exact ih _ (Nat.div_lt_self (by omega) (by omega)) h1
      · simp at h2
        omega

/-- A number up to 99 has at most two decimal digits. -/
theorem decDigits_length_le_two {n : Nat} (hn : n ≤ 99) :
    (decDigits n).length ≤ 2 := by
  by_cases h : n < 10
  · simp [decDigits_lt h]
  · have h10 : n / 10 < 10 := by omega
    rw [decDigits_ge (by omega), decDigits_lt h10]
    simp

/-- Padding to width `w` yields exactly `w` characters when the digit
string is no longer than `w`. -/
theorem decFmt_length {w n : Nat} (h : (decDigits n).length ≤ w) :
    (decFmt w n).length = w := by
  simp [decFmt, zeroPad]
  omega

/-- Every element of a zero-padded digit string is an ASCII decimal
digit. -/
theorem decFmt_mem {w n d : Nat} (h : d ∈ decFmt w n) : 48 ≤ d ∧ d ≤ 57 := by
  rcases List.mem_append.mp h with h1 | h2
  · have := List.eq_of_mem_replicate h1
    omega
  · exact decDigits_mem h2

/-- Both characters of the two-digit uppercase hex rendering are ASCII
(digits or `'A'..'F'`) whenever the argument is below 256. -/
theorem hexFmt2_mem {n d : Nat} (hn : n < 256) (h : d ∈ hexFmt2 n) :
    48 ≤ d ∧ d ≤ 70 := by
  have h16a : n / 16 < 16 := by omega
  have h16b : n % 16 < 16 := Nat.mod_lt _ (by omega)
  simp [hexFmt2] at h
  rcases h with h | h <;> subst h <;> unfold hexDigit <;> split <;> omega

/-- Upper-casing keeps a printable ASCII character printable. -/
theorem upperChar_printable {c : Nat} (h : 32 ≤ c ∧ c ≤ 126) :
    32 ≤ upperChar c ∧ upperChar c ≤ 126 := by
  unfold upperChar
  split <;> omega

/-- Every byte of the frame built over a printable-ASCII payload is below
128, so `bytes(...,'ascii')` accepts the frame. -/
theorem frameStr_ascii {address : Option Nat} {cmd : List Nat}
    (h : ∀ c ∈ payload address cmd, c < 128) :
    (frameStr address cmd).all (· < 128) = true := by
  rw [List.all_eq_true]
  intro d hd
  simp only [decide_eq_true_eq]
  simp [frameStr] at hd
  rcases hd with hd | hd | hd | hd | hd
  · simp [STX] at hd
    omega
  · have := decFmt_mem hd
    omega
  · exact h _ hd
  · have := hexFmt2_mem (Nat.mod_lt _ (by omega)) hd
    omega
  · simp [ETX] at hd
    omega

/-! ### Claims -/

/-- C2: classification precedence over control bytes: a reply with no ACK
(0x06) anywhere classifies as `ComError` whatever else it contains, and a
reply containing both ACK and CAN (0x18) classifies as `SyntaxError`
whether or not SUB (0x1A) is present. -/
theorem decode_precedence (buf : List Nat) :
    (6 ∉ buf → decode buf = .ok .ComError) ∧
    (6 ∈ buf → 24 ∈ buf → decode buf = .ok .SyntaxError) := by
  constructor
  · intro h
    simp [decode, h]
  · intro h1 h2
    simp [decode, h1, h2]

/-- Witness for C2: a reply holding CAN and SUB but no ACK is `ComError`;
a reply holding ACK, CAN and SUB is `SyntaxError`. -/
theorem decode_precedence_witness :
    decode [24, 26] = .ok .ComError ∧ decode [6, 24, 26] = .ok .SyntaxError :=
  ⟨(decode_precedence [24, 26]).1 (by decide),
   (decode_precedence [6, 24, 26]).2 (by decide) (by decide)⟩

/-- C3: a reply containing ACK (0x06) and SUB (0x1A) but no CAN (0x18)
decodes to `Data` of the ASCII decoding of `reponse[6:-4]`, i.e. the
bytes left after dropping the first 6 and the last 4. -/
theorem decode_data_extraction (buf : List Nat)
    (hack : 6 ∈ buf) (hcan : 24 ∉ buf) (hsub : 26 ∈ buf) :
    decode buf = (asciiDecode (pySlice buf)).map .Data := by
  simp [decode, hack, hcan, hsub]

/-- Witness for C3 on a 12-byte reply: the payload is bytes 6..7. -/
theorem decode_data_extraction_witness :
    decode [6, 26, 0, 0, 0, 0, 65, 66, 0, 0, 0, 0] =
      (asciiDecode (pySlice [6, 26, 0, 0, 0, 0, 65, 66, 0, 0, 0, 0])).map
        .Data ∧
    decode [6, 26, 0, 0, 0, 0, 65, 66, 0, 0, 0, 0] = .ok (.Data [65, 66]) :=
  ⟨decode_data_extraction _ (by decide) (by decide) (by decide), by rfl⟩

/-- C9: encoding is case-insensitive: two commands that agree after
upper-casing produce the identical frame, for every address
configuration. -/
theorem encode_case_insensitive (address : Option Nat) (c c2 : List Nat)
    (h : upperStr c = upperStr c2) :
    encode address c = encode address c2 := by
  cases address <;> simp [encode, frameStr, payload, h]

/-- Witness for C9: `"ab"` and `"Ab"` encode identically at address 0. -/
theorem encode_case_insensitive_witness :
    encode (some 0) [97, 98] = encode (some 0) [65, 98] :=
  encode_case_insensitive (some 0) [97, 98] [65, 98] (by decide)

/-- C10: one exchange leaves the session configuration (port, baudrate,
address) unchanged, whatever the command, transport behaviour and
reply. -/
theorem send_preserves_state (st : BMACState) (cmd : List Nat) (w : Bool)
    (r : Option (List Nat)) : (send st cmd w r).2 = st := by
  unfold send
  split
  · rfl
  · split
    · rfl
    · split
      · rfl
      · split <;> rfl

/-- C1: for a printable-ASCII command and a configured address in 0..99,
`encode` succeeds and produces exactly STX, the payload length zero-padded
to 3 decimal digits, the two zero-padded address digits, the uppercased
command, the checksum (sum of the code points of the address-prefixed
uppercased payload, mod 256) as 2 uppercase hex digits, and ETX. -/
theorem encode_frame_layout (addr : Nat) (cmd : List Nat)
    (haddr : addr ≤ 99) (hcmd : ∀ c ∈ cmd, 32 ≤ c ∧ c ≤ 126) :
    (decFmt 2 addr).length = 2 ∧
    encode (some addr) cmd =
      .ok ([2] ++ decFmt 3 (2 + cmd.length) ++ decFmt 2 addr ++ upperStr cmd
        ++ hexFmt2 (((decFmt 2 addr ++ upperStr cmd).foldl (· + ·) 0) % 256)
        ++ [3]) := by
  have hlen2 : (decFmt 2 addr).length = 2 :=
    decFmt_length (decDigits_length_le_two haddr)
  have hpay : ∀ c ∈ payload (some addr) cmd, c < 128 := by
    intro c hc
    rcases List.mem_append.mp hc with h1 | h2
    · have := decFmt_mem h1
      omega
    · simp [upperStr] at h2
      obtain ⟨a, ha, rfl⟩ := h2
      have := upperChar_printable (hcmd a ha)
      omega
  refine ⟨hlen2, ?_⟩
  have hall := frameStr_ascii hpay
  have hplen : (decFmt 2 addr ++ upperStr cmd).length = 2 + cmd.length := by
    simp [hlen2, upperStr]
  have hframe : frameStr (some addr) cmd =
      [2] ++ decFmt 3 (2 + cmd.length) ++ decFmt 2 addr ++ upperStr cmd
        ++ hexFmt2 (((decFmt 2 addr ++ upperStr cmd).foldl (· + ·) 0) % 256)
        ++ [3] := by
    have hmod : ∀ x : Nat, x % 256 % 256 = x % 256 := by
      intro x
      omega
    simp only [frameStr, payload, checksum, STX, ETX, hplen, hmod,
      List.append_assoc]
  rw [encode, hframe, asciiEncode, if_pos (hframe ▸ hall)]

/-- Witness for C1 at address 0 and command `"READ #STATUS"`. -/
theorem encode_frame_layout_witness :
    (decFmt 2 0).length = 2 ∧
    encode (some 0) [82, 69, 65, 68, 32, 35, 83, 84, 65, 84, 85, 83] =
      .ok ([2] ++ decFmt 3 (2 + 12) ++ decFmt 2 0
        ++ upperStr [82, 69, 65, 68, 32, 35, 83, 84, 65, 84, 85, 83]
        ++ hexFmt2 (((decFmt 2 0
          ++ upperStr [82, 69, 65, 68, 32, 35, 83, 84, 65, 84, 85, 83]).foldl
            (· + ·) 0) % 256)
        ++ [3]) :=
  encode_frame_layout 0 [82, 69, 65, 68, 32, 35, 83, 84, 65, 84, 85, 83]
    (by decide) (by decide)

set_option maxRecDepth 40000 in
/-- C4 (refutation of the oversize clause): a 998-character ASCII command
at address 0 yields a 1000-byte payload, yet `encode` succeeds instead of
failing, emitting a malformed frame whose length field holds the four
digits `"1000"` where the protocol comment of pyshell.py line 67 allows
only `[SIZ1][SIZ2][SIZ3]`. -/
theorem encode_oversize_no_error :
    (payload (some 0) (List.replicate 998 65)).length = 1000 ∧
    encode (some 0) (List.replicate 998 65) =
      .ok (frameStr (some 0) (List.replicate 998 65)) ∧
    (frameStr (some 0) (List.replicate 998 65)).take 5 =
      [2, 49, 48, 48, 48] := by
  refine ⟨by decide, ?_, by decide⟩
  have hall : (frameStr (some 0) (List.replicate 998 65)).all (· < 128) =
      true := by decide
  rw [encode, asciiEncode, if_pos hall]

/-- C5 counterexample: the reply `[0x06, 0x1A]` reaches the Data branch
and is shorter than the 10-byte overhead, yet decoding does not fail:
the clamped slice `reponse[6:-4]` is empty and the outcome is
`Data ""`. -/
theorem decode_short_reply_no_error : decode [6, 26] = .ok (.Data []) := by
  rfl

/-- C5 amended: in the Data branch, decoding fails exactly when the
clamped slice `reponse[6:-4]` holds a non-ASCII byte; a reply shorter
than 11 bytes never fails there and yields `Data` of the empty
payload. -/
theorem decode_data_errors (buf : List Nat)
    (hack : 6 ∈ buf) (hcan : 24 ∉ buf) (hsub : 26 ∈ buf) :
    (decode buf = .error () ↔ (pySlice buf).all (· < 128) = false) ∧
    (buf.length ≤ 10 → decode buf = .ok (.Data [])) := by
  have hd : decode buf = (asciiDecode (pySlice buf)).map .Data := by
    simp [decode, hack, hcan, hsub]
  constructor
  · rw [hd]
    unfold asciiDecode
    cases h : (pySlice buf).all (· < 128) <;> simp [h, Except.map]
  · intro hlen
    have hnil : pySlice buf = [] := by
      unfold pySlice
      have h0 : buf.length - 10 = 0 := by omega
      simp [h0]
    rw [hd, hnil]
    rfl

/-- Witness for C5's amended claim: an 11-byte reply whose seventh byte
is 0xC8 fails to decode, and the 2-byte reply `[0x06, 0x1A]` yields
`Data ""`. -/
theorem decode_data_errors_witness :
    decode [6, 26, 0, 0, 0, 0, 200, 0, 0, 0, 0] = .error () ∧
    decode [6, 26] = .ok (.Data []) :=
  ⟨(decode_data_errors [6, 26, 0, 0, 0, 0, 200, 0, 0, 0, 0] (by decide)
      (by decide) (by decide)).1.mpr (by decide),
   (decode_data_errors [6, 26] (by decide) (by decide) (by decide)).2
      (by decide)⟩

/-- C6: prefixing the sentinel strips it and shifts the checksum by
exactly one: the sentinel-aware frame of `s :: cmd` carries the payload
of `cmd` alone with checksum `(checksum(payload) + 1) % 256`, while `cmd`
itself (not starting with the sentinel) frames exactly as the plain
encoder does. -/
theorem sentinel_checksum_shift (s : Nat) (addr : Option Nat)
    (cmd : List Nat) (h : cmd.head? ≠ some s) :
    frameStrSent s addr (s :: cmd) =
      [STX] ++ decFmt 3 (payload addr cmd).length ++ payload addr cmd
        ++ hexFmt2 ((checksum (payload addr cmd) + 1) % 256) ++ [ETX] ∧
    frameStrSent s addr cmd = frameStr addr cmd := by
  have hstrip : stripSent s cmd = (cmd, 0) := by
    cases cmd with
    | nil => rfl
    | cons c rest =>
      have hc : c ≠ s := by
        simp at h
        exact h
      simp [stripSent, hc]
  have h1 : stripSent s (s :: cmd) = (cmd, 1) := by
    simp [stripSent]
  constructor
  · have hmod : ∀ x : Nat, (1 + x) % 256 = (x % 256 + 1) % 256 := by
      intro x
      omega
    simp only [frameStrSent, h1, checksum, hmod]
  · have hmod0 : ∀ x : Nat, (0 + x) % 256 = x % 256 % 256 := by
      intro x
      omega
    simp only [frameStrSent, frameStr, hstrip, checksum, hmod0]

/-- Witness for C6 with sentinel 0xB0, address 0 and command `"A"`. -/
theorem sentinel_checksum_shift_witness :
    frameStrSent 176 (some 0) [176, 65] =
      [STX] ++ decFmt 3 (payload (some 0) [65]).length ++ payload (some 0) [65]
        ++ hexFmt2 ((checksum (payload (some 0) [65]) + 1) % 256) ++ [ETX] ∧
    frameStrSent 176 (some 0) [65] = frameStr (some 0) [65] :=
  sentinel_checksum_shift 176 (some 0) [65] (by decide)

/-- C7: when the write succeeds and the read returns zero bytes (a
timeout without a transport fault), the outcome is the ordinary value
`ComError`, not a serial-exception return: the empty buffer falls under
the ACK-absent rule. -/
theorem empty_reply_com_error (st : BMACState) (cmd : List Nat)
    (h : (frameStr st.address cmd).all (· < 128) = true) :
    send st cmd true (some []) = (.result .ComError, st) := by
  simp [send, encode, asciiEncode, h, decode]

/-- Witness for C7: command `"A"` at address 0 with an empty reply. -/
theorem empty_reply_com_error_witness :
    send ⟨none, 115200, some 0⟩ [65] true (some []) =
      (.result .ComError, ⟨none, 115200, some 0⟩) :=
  empty_reply_com_error ⟨none, 115200, some 0⟩ [65] (by decide)

/-- C8: a transport fault on the write, or on the read, makes `send`
return the serial-exception result without classifying any bytes, and a
classified outcome is produced only when the write succeeded and the read
returned a buffer. -/
theorem transport_fault_no_classification (st : BMACState) (cmd : List Nat)
    (h : (frameStr st.address cmd).all (· < 128) = true) :
    (∀ r, send st cmd false r = (.serialException, st)) ∧
    send st cmd true none = (.serialException, st) ∧
    (∀ w r p, (send st cmd w r).1 = .result p → w = true ∧ r ≠ none) := by
  refine ⟨?_, ?_, ?_⟩
  · intro r
    simp [send, encode, asciiEncode, h]
  · simp [send, encode, asciiEncode, h]
  · intro w r p hs
    cases w
    · simp [send, encode, asciiEncode, h] at hs
    · cases r with
      | none => simp [send, encode, asciiEncode, h] at hs
      | some buf => exact ⟨rfl, by simp⟩

/-- Witness for C8: command `"A"` at address 0, with a failing write and
then with a failing read. -/
theorem transport_fault_no_classification_witness :
    send ⟨none, 115200, some 0⟩ [65] false (some [6]) =
      (.serialException, ⟨none, 115200, some 0⟩) ∧
    send ⟨none, 115200, some 0⟩ [65] true none =
      (.serialException, ⟨none, 115200, some 0⟩) :=
  ⟨(transport_fault_no_classification ⟨none, 115200, some 0⟩ [65]
      (by decide)).1 (some [6]),
   (transport_fault_no_classification ⟨none, 115200, some 0⟩ [65]
      (by decide)).2.1⟩

end PyShell
